import Mathlib

/-!
Shallow embedding of `crates/forge/bin/cmd/script/runner.rs` (the script
runner of this repository): the stage orchestrator `setup`, the nonce
correction `maybe_correct_nonce`, the call/deploy simulator `simulate` and
`call`, and the gas estimation binary search `search_optimal_gas_usage`.

The execution engine (the `Executor` of the `forge` crate) is out of scope
per the specification and is modelled as an abstract state `ExecState`
together with a record of behaviour oracles `EngineBehavior` exposing
exactly the interface the runner consumes.  Machine integers (`u64` gas
values) are modelled as `Nat` with explicit wrapping modulo `2 ^ 64` at the
operations that can overflow.  Fallible engine calls return `Option`;
`None` models a propagated engine error.  The search loop is written with
explicit fuel, since its termination is itself one of the properties under
study; `LoopExit.out` marks fuel exhaustion (a model artifact, proved
unreachable with logarithmic fuel).
-/

/-- Wrap-around modulus of the 64-bit gas arithmetic. -/
def MOD64 : Nat := 2 ^ 64

/-- Wrapping 64-bit addition. -/
def wadd (a b : Nat) : Nat := (a + b) % MOD64

/-- Wrapping 64-bit multiplication. -/
def wmul (a b : Nat) : Nat := (a * b) % MOD64

/-- Wrapping 64-bit subtraction (two's complement behaviour for inputs below `MOD64`). -/
def wsub (a b : Nat) : Nat := (a + (MOD64 - b % MOD64)) % MOD64

/-- Exit codes of the interpreter relevant to the runner: `Stop`, `Ret` and
`SelfDestruct` are the `return_ok!` codes; `Revert`, `OutOfGas`, `OutOfFund`
are the codes the gas search treats as an insufficient budget; `Other`
stands for any remaining code. -/
inductive ExitReason where
  | Stop
  | Ret
  | SelfDestruct
  | Revert
  | OutOfGas
  | OutOfFund
  | Other
deriving DecidableEq

/-- The `matches!(res.exit_reason, return_ok!())` test of the source. -/
def isReturnOk : ExitReason → Bool
  | .Stop => true
  | .Ret => true
  | .SelfDestruct => true
  | _ => false

/-- The `InstructionResult::Revert | OutOfGas | OutOfFund` arm of the search loop. -/
def isGasFailure : ExitReason → Bool
  | .Revert => true
  | .OutOfGas => true
  | .OutOfFund => true
  | _ => false

/-- Cheatcode inspector state carried by the executor and by raw call results:
the nonce-corrected flag and (abstractly) the breakpoint set. -/
structure Cheatcodes where
  corrected_nonce : Bool
  breakpoints : Nat
deriving DecidableEq

/-- Result of `Executor::call_raw` / `call_raw_committing` as consumed by the
runner.  Payloads that the runner only moves around (logs, traces, debug
arenas, labels, transactions) are abstracted to `Nat` identifiers. -/
structure RawCallResult where
  exit_reason : ExitReason
  reverted : Bool
  gas_used : Nat
  result : List Nat
  logs : List Nat
  traces : Option Nat
  labels : List (Nat × Nat)
  debug : Option Nat
  transactions : Option (List Nat)
  cheatcodes : Option Cheatcodes
deriving DecidableEq

/-- Trace phase tag. -/
inductive TraceKind where
  | Deployment
  | Setup
  | Execution
deriving DecidableEq

/-- Modelled from the spec: the `ScriptResult` record (declared outside the
embedded file in the source tree); its fields are exactly those assigned at
the construction sites in `runner.rs` plus the defaults filled in by
`..Default::default()`. -/
structure ScriptResult where
  returned : List Nat
  success : Bool
  gas_used : Nat
  labeled_addresses : List (Nat × Nat)
  transactions : Option (List Nat)
  logs : List Nat
  traces : List (TraceKind × Nat)
  debug : Option (List Nat)
  address : Option Nat
  breakpoints : Nat
deriving DecidableEq

/-- Result of `Executor::deploy` as consumed by the runner. -/
structure DeployResult where
  address : Nat
  gas_used : Nat
  logs : List Nat
  traces : Option Nat
  debug : Option Nat
deriving DecidableEq

/-- Result of `Executor::setup` (clean outcome with a revert flag). -/
structure CallResult where
  reverted : Bool
  traces : Option Nat
  labels : List (Nat × Nat)
  logs : List Nat
  debug : Option Nat
  gas_used : Nat
  transactions : Option (List Nat)
deriving DecidableEq

/-- The structured execution failure (`EvmError::Execution`): the same
diagnostic fields plus a reason. -/
structure ExecutionErr where
  reverted : Bool
  reason : Nat
  traces : Option Nat
  labels : List (Nat × Nat)
  logs : List Nat
  debug : Option Nat
  gas_used : Nat
  transactions : Option (List Nat)
deriving DecidableEq

/-- Outcome shapes of `Executor::deploy`: clean result, structured execution
failure, or an unrecoverable engine error. -/
inductive DeployOutcome where
  | ok (d : DeployResult)
  | execErr (e : ExecutionErr)
  | fatal
deriving DecidableEq

/-- Outcome shapes of `Executor::setup`. -/
inductive SetupOutcome where
  | ok (c : CallResult)
  | execErr (e : ExecutionErr)
  | fatal
deriving DecidableEq

/-- Observable engine state threaded through the runner: the transaction
gas-limit configuration field `env.tx.gas_limit`, an opaque persistent world
component, balances, nonces, the optional cheatcode inspector, and the
zk and test-contract bookkeeping fields the runner assigns. -/
structure ExecState where
  glim : Nat
  world : Nat
  balances : Nat → Nat
  nonces : Nat → Nat
  cheatcodes : Option Cheatcodes
  use_zk : Bool
  zk_tx : Option Nat
  test_contract : Option Nat

/-- Black-box behaviour of the engine, exactly the interface of section 6 of
the specification.  `callRaw` is the non-committing pure simulation (it reads
the state, in particular the configured gas limit, and returns a result
without mutating anything); `callRawCommitting` additionally returns the new
persistent world component; `deployEx` and `setupEx` return an outcome
together with the advanced engine state; `createAddr` is the deterministic
contract-address derivation; `create2World` is the world transformer of
`deploy_create2_deployer`.  Balance/nonce setters are modelled as always
succeeding, per the consistent-engine assumption of section 7. -/
structure EngineBehavior where
  callRaw : ExecState → Nat → Nat → List Nat → Nat → Option RawCallResult
  callRawCommitting : ExecState → Nat → Nat → List Nat → Nat → Option (RawCallResult × Nat)
  deployEx : ExecState → Nat → List Nat → Nat → DeployOutcome × ExecState
  setupEx : ExecState → Option Nat → Nat → SetupOutcome × ExecState
  createAddr : Nat → Nat → Nat
  create2World : Nat → Nat

/-- The engine-internal caller identity (`forge::constants::CALLER`). -/
def CALLER : Nat := 1

/-- The tool's placeholder default sender (`Config::DEFAULT_SENDER`). -/
def DEFAULT_SENDER : Nat := 2

/-- Maximum representable balance (`U256::MAX`). -/
def U256MAX : Nat := 2 ^ 256 - 1

/-- `Executor::set_balance`. -/
def setBalance (s : ExecState) (a v : Nat) : ExecState :=
  { s with balances := Function.update s.balances a v }

/-- `Executor::set_nonce`. -/
def setNonce (s : ExecState) (a v : Nat) : ExecState :=
  { s with nonces := Function.update s.nonces a v }

/-- Engine operations performed by the call path, recorded as a ghost trace:
a non-committing simulation at the gas limit configured when it ran, and a
committing execution at its configured gas limit. -/
inductive Op where
  | oCallRaw (g : Nat)
  | oCommit (g : Nat)
deriving DecidableEq

/-- Exit of the binary-search loop: `done` carries the engine state, the
final `lowest_gas_limit`, `highest_gas_limit`, `last_highest_gas_limit`, the
`gas_used` accumulator, whether the convergence break fired, and the ghost
trace of simulations; `errEx` is a propagated engine error; `out` marks
exhausted fuel (model artifact). -/
inductive LoopExit where
  | done (s : ExecState) (low high last acc : Nat) (early : Bool) (ops : List Op)
  | errEx (s : ExecState) (ops : List Op)
  | out

/-- Prepend one ghost operation to a loop exit. -/
def LoopExit.consOp (o : Op) : LoopExit → LoopExit
  | .done s l h la a e ops => .done s l h la a e (o :: ops)
  | .errEx s ops => .errEx s (o :: ops)
  | .out => .out

/-- The `while (highest_gas_limit - lowest_gas_limit) > 1` loop of
`search_optimal_gas_usage`, transcribed literally: the midpoint is written to
the engine's gas-limit field, the call is re-simulated, an insufficient
budget raises the lower bound, success lowers the upper bound and breaks
early (assigning the accumulator) when the last two successful bounds differ
by less than 10%.  All gas arithmetic wraps modulo `2 ^ 64`. -/
def searchLoop (B : EngineBehavior) (f t : Nat) (cd : List Nat) (v : Nat) :
    Nat → ExecState → Nat → Nat → Nat → Nat → LoopExit
  | 0, s, low, high, last, acc =>
      if 1 < wsub high low then .out else .done s low high last acc false []
  | fuel + 1, s, low, high, last, acc =>
      if 1 < wsub high low then
        let mid := wadd high low / 2
        let sm : ExecState := { s with glim := mid }
        match B.callRaw sm f t cd v with
        | none => .errEx sm [Op.oCallRaw mid]
        | some r =>
            if isGasFailure r.exit_reason then
              (searchLoop B f t cd v fuel sm mid high last acc).consOp (Op.oCallRaw mid)
            else
              if wmul (wsub last mid) 10 / last < 1 then
                .done sm low mid last mid true [Op.oCallRaw mid]
              else
                (searchLoop B f t cd v fuel sm low mid mid acc).consOp (Op.oCallRaw mid)
      else .done s low high last acc false []

/-- Result of the gas estimation search: estimate with final engine state and
ghost trace, propagated engine error, or exhausted fuel. -/
inductive SearchRes where
  | ok (s : ExecState) (ops : List Op) (gas : Nat)
  | err (s : ExecState) (ops : List Op)
  | out

/-- The `search_optimal_gas_usage` function: if the baseline outcome was a
`return_ok!` code, remember the configured gas limit, run the binary search
between the baseline gas and three times the baseline gas, and restore the
gas limit after the loop; the restore is skipped on an engine error because
the `?` operator returns before it.  A non-successful baseline returns the
baseline gas figure unchanged. -/
def searchFn (B : EngineBehavior) (f t : Nat) (cd : List Nat) (v : Nat)
    (fuel : Nat) (s : ExecState) (res : RawCallResult) : SearchRes :=
  let gas0 := res.gas_used
  if isReturnOk res.exit_reason then
    let initGlim := s.glim
    match searchLoop B f t cd v fuel s gas0 (wmul gas0 3) (wmul gas0 3) gas0 with
    | .done s1 _ _ _ acc _ ops => .ok { s1 with glim := initGlim } ops acc
    | .errEx s1 ops => .err s1 ops
    | .out => .out
  else .ok s [] gas0

/-- Assembly of a `ScriptResult` from a raw call result, as written at the
end of `call` (the gas figure is passed separately because the committing
path reports the estimated gas instead of the raw one). -/
def mkScriptResult (r : RawCallResult) (gas : Nat) : ScriptResult :=
  { returned := r.result
    success := !r.reverted
    gas_used := gas
    labeled_addresses := r.labels
    transactions := r.transactions
    logs := r.logs
    traces := (r.traces.map (fun tr => [(TraceKind.Execution, tr)])).getD []
    debug := r.debug.map (fun d => [d])
    address := none
    breakpoints := (r.cheatcodes.map Cheatcodes.breakpoints).getD 0 }

/-- Result of the call path: `ScriptResult` with final engine state and ghost
operation trace, propagated error, or exhausted search fuel (model artifact). -/
inductive CallRes where
  | ok (s : ExecState) (ops : List Op) (r : ScriptResult)
  | err (s : ExecState) (ops : List Op)
  | out

/-- The shared low-level `call` path: one non-committing baseline simulation;
when `commit` holds, the gas estimation search refines the gas figure and
the call is re-executed in committing mode with the original parameters;
otherwise the baseline result stands. -/
def callFn (B : EngineBehavior) (fuel : Nat) (s : ExecState)
    (f t : Nat) (cd : List Nat) (v : Nat) (commit : Bool) : CallRes :=
  match B.callRaw s f t cd v with
  | none => .err s [Op.oCallRaw s.glim]
  | some res =>
      if commit then
        match searchFn B f t cd v fuel s res with
        | .out => .out
        | .err s1 ops => .err s1 (Op.oCallRaw s.glim :: ops)
        | .ok s1 ops gas =>
            match B.callRawCommitting s1 f t cd v with
            | none => .err s1 (Op.oCallRaw s.glim :: ops ++ [Op.oCommit s1.glim])
            | some (res2, w2) =>
                .ok { s1 with world := w2 }
                  (Op.oCallRaw s.glim :: ops ++ [Op.oCommit s1.glim])
                  (mkScriptResult res2 gas)
      else .ok s [Op.oCallRaw s.glim] (mkScriptResult res res.gas_used)

/-- The zk bookkeeping `simulate` performs before dispatching: assign
`use_zk` and, when metadata is present, store it via `setup_zk_tx`. -/
def simPrep (s : ExecState) (uz : Bool) (zk : Option Nat) : ExecState :=
  let s1 := { s with use_zk := uz }
  match zk with
  | some m => { s1 with zk_tx := some m }
  | none => s1

/-- Assembly of the `ScriptResult` of the deployment branch of `simulate`:
success is the address differing from the zero sentinel, traces are tagged
`Execution`, and the deployed address is reported. -/
def mkDeployScriptResult (addr gas : Nat) (logs : List Nat)
    (traces : Option Nat) (debug : Option Nat) : ScriptResult :=
  { returned := []
    success := decide (addr ≠ 0)
    gas_used := gas
    labeled_addresses := []
    transactions := none
    logs := logs
    traces := (traces.map (fun tr => [(TraceKind.Execution, tr)])).getD []
    debug := debug.map (fun d => [d])
    address := some addr
    breakpoints := 0 }

/-- The `simulate` entry point.  A present `to` delegates to the committing
call path; an absent `to` is a contract creation whose structured failure is
absorbed into a sentinel result (the reason is printed, which a pure model
drops) while an unrecoverable error propagates.  The `expect` panic on a
creation without calldata is modelled as a propagated error. -/
def simulateFn (B : EngineBehavior) (fuel : Nat) (s : ExecState) (f : Nat)
    (toAddr : Option Nat) (calldata : Option (List Nat)) (value : Option Nat)
    (uz : Bool) (zk : Option Nat) : CallRes :=
  let s1 := simPrep s uz zk
  match toAddr with
  | some t => callFn B fuel s1 f t (calldata.getD []) (value.getD 0) true
  | none =>
      match calldata with
      | none => .err s1 []
      | some cd =>
          match B.deployEx s1 f cd (value.getD 0) with
          | (.ok d, s2) =>
              .ok s2 [] (mkDeployScriptResult d.address d.gas_used d.logs d.traces d.debug)
          | (.execErr e, s2) =>
              .ok s2 [] (mkDeployScriptResult 0 e.gas_used e.logs e.traces e.debug)
          | (.fatal, s2) => .err s2 []

/-- Collect the optional debug arenas the way `vec![..].into_iter().collect()`
builds an `Option<Vec<_>>`: all present or nothing. -/
def seqOpt : List (Option Nat) → Option (List Nat)
  | [] => some []
  | o :: rest =>
      match o, seqOpt rest with
      | some d, some ds => some (d :: ds)
      | _, _ => none

/-- Library deployment fold of `setup`: each library is deployed from the
sender with zero value, the traces that exist are collected tagged
`Deployment`, and any failure aborts (the source unwraps with `expect`). -/
def deployLibs (B : EngineBehavior) (sender : Nat) :
    ExecState → List (List Nat) → Option (ExecState × List (TraceKind × Nat))
  | s, [] => some (s, [])
  | s, c :: rest =>
      match B.deployEx s sender c 0 with
      | (.ok d, s1) =>
          (deployLibs B sender s1 rest).map
            (fun p => (p.1, ((d.traces.map (fun tr => [(TraceKind.Deployment, tr)])).getD []) ++ p.2))
      | (.execErr _, _) => none
      | (.fatal, _) => none

/-- Everything `setup` does before the optional setup invocation: local-mode
balance provisioning and CREATE2 deployer, forcing the sender nonce,
crediting the caller identity, deploying the libraries, pre-funding the
derived address, and deploying the main contract.  Returns the advanced
state, the deployed address, the accumulated deployment traces, the
constructor logs and the constructor debug arena; `none` is a fatal abort. -/
def setupPre (B : EngineBehavior) (s0 : ExecState) (sender initBal : Nat)
    (libraries : List (List Nat)) (code : List Nat) (sender_nonce : Nat)
    (is_broadcast need_create2 : Bool) :
    Option (ExecState × Nat × List (TraceKind × Nat) × List Nat × Option Nat) :=
  let sa := if !is_broadcast then
      (if sender = DEFAULT_SENDER then setBalance s0 sender U256MAX else s0) else s0
  let sb := if !is_broadcast then
      (if need_create2 then { sa with world := B.create2World sa.world } else sa) else sa
  let sc := setNonce sb sender sender_nonce
  let sd := setBalance sc CALLER U256MAX
  match deployLibs B sender sd libraries with
  | none => none
  | some (se, libTraces) =>
      let addr0 := B.createAddr CALLER (se.nonces CALLER)
      let sf := setBalance se addr0 initBal
      match B.deployEx sf CALLER code 0 with
      | (.ok d, sg) =>
          some (sg, d.address,
            libTraces ++ ((d.traces.map (fun tr => [(TraceKind.Deployment, tr)])).getD []),
            d.logs, d.debug)
      | (.execErr _, _) => none
      | (.fatal, _) => none

/-- The `maybe_correct_nonce` step: when the cheatcode subsystem is present
and did not correct the nonce, force the sender nonce to the starting nonce
plus the library count; in either case clear the corrected flag; absent
cheatcodes leave the state untouched. -/
def maybeCorrectNonce (s : ExecState) (sender n0 len : Nat) : ExecState :=
  match s.cheatcodes with
  | some cc =>
      let s1 := if !cc.corrected_nonce then setNonce s sender (n0 + len) else s
      { s1 with cheatcodes := some { cc with corrected_nonce := false } }
  | none => s

/-- Tag an optional setup trace the way the setup branch extends the
aggregate. -/
def tagSetup (o : Option Nat) : List (TraceKind × Nat) :=
  (o.map (fun tr => [(TraceKind.Setup, tr)])).getD []

/-- The tail of `setup` after the main deployment, transcribing the source's
branch on the setup flag: without a setup invocation the test contract is
recorded and a trivial success is reported; with one, the clean and the
structured-failure outcomes are each (in duplicated source code) merged into
the aggregates, nonce-corrected and assembled, while a fatal engine error
propagates. -/
def setupPost (B : EngineBehavior) (sender sender_nonce libLen : Nat) (doSetup : Bool)
    (pre : ExecState × Nat × List (TraceKind × Nat) × List Nat × Option Nat) :
    Option (ExecState × Nat × ScriptResult) :=
  match pre with
  | (sg, address, traces, logs, cdbg) =>
      if !doSetup then
        some ({ sg with test_contract := some address }, address,
          { returned := [], success := true, gas_used := 0, labeled_addresses := [],
            transactions := none, logs := logs, traces := traces,
            debug := seqOpt [cdbg], address := none, breakpoints := 0 })
      else
        match B.setupEx sg (some sender) address with
        | (.ok c, sh) =>
            let traces2 := traces ++ tagSetup c.traces
            let logs2 := logs ++ c.logs
            let si := maybeCorrectNonce sh sender sender_nonce libLen
            some (si, address,
              { returned := [], success := !c.reverted, gas_used := c.gas_used,
                labeled_addresses := c.labels, transactions := c.transactions,
                logs := logs2, traces := traces2, debug := seqOpt [cdbg, c.debug],
                address := none, breakpoints := 0 })
        | (.execErr e, sh) =>
            let traces2 := traces ++ tagSetup e.traces
            let logs2 := logs ++ e.logs
            let si := maybeCorrectNonce sh sender sender_nonce libLen
            some (si, address,
              { returned := [], success := !e.reverted, gas_used := e.gas_used,
                labeled_addresses := e.labels, transactions := e.transactions,
                logs := logs2, traces := traces2, debug := seqOpt [cdbg, e.debug],
                address := none, breakpoints := 0 })
        | (.fatal, _) => none

/-- The `setup` entry point as the composition of its pre-branch pipeline and
its setup branch. -/
def setupFn (B : EngineBehavior) (s0 : ExecState) (sender initBal : Nat)
    (libraries : List (List Nat)) (code : List Nat) (doSetup : Bool)
    (sender_nonce : Nat) (is_broadcast need_create2 : Bool) :
    Option (ExecState × Nat × ScriptResult) :=
  (setupPre B s0 sender initBal libraries code sender_nonce is_broadcast need_create2).bind
    (setupPost B sender sender_nonce libraries.length doSetup)

/-- Modelled from the spec: the single normalization both setup outcome
shapes must be mapped through — append the `Setup`-tagged traces and the
logs, apply the nonce correction, and assemble the result from the common
diagnostic fields with `success` the negation of the revert flag and the
debug bucket holding constructor and setup arenas. -/
def setupNormalize (sh : ExecState) (sender n0 libLen address : Nat)
    (traces : List (TraceKind × Nat)) (logs : List Nat) (cdbg : Option Nat)
    (reverted : Bool) (gas : Nat) (labels : List (Nat × Nat))
    (txs : Option (List Nat)) (stTraces : Option Nat) (stLogs : List Nat)
    (stDebug : Option Nat) : ExecState × Nat × ScriptResult :=
  (maybeCorrectNonce sh sender n0 libLen, address,
    { returned := [], success := !reverted, gas_used := gas,
      labeled_addresses := labels, transactions := txs,
      logs := logs ++ stLogs, traces := traces ++ tagSetup stTraces,
      debug := seqOpt [cdbg, stDebug], address := none, breakpoints := 0 })

/-- Per-iteration events of the search loop, recorded for the safety
invariant: `chk` is an evaluation of the loop guard subtraction with the
current bounds and last successful bound, `conv` is an evaluation of the
convergence expression with the current last bound and the freshly assigned
upper bound. -/
inductive IterEvent where
  | chk (low high last : Nat)
  | conv (last high : Nat)
deriving DecidableEq

/-- Boolean invariant of one event: the guard subtraction does not underflow
(`low ≤ high`, with `high ≤ last` alongside), and the convergence expression
neither underflows (`high ≤ last`) nor divides by zero (`0 < last`). -/
def eventInvB : IterEvent → Bool
  | .chk low high last => decide (low ≤ high) && decide (high ≤ last)
  | .conv last high => decide (high ≤ last) && decide (0 < last)

/-- The search loop instrumented with the list of per-iteration events; its
first component follows `searchLoop` literally. -/
def searchLoopTrace (B : EngineBehavior) (f t : Nat) (cd : List Nat) (v : Nat) :
    Nat → ExecState → Nat → Nat → Nat → Nat → LoopExit × List IterEvent
  | 0, s, low, high, last, acc =>
      ((if 1 < wsub high low then .out else .done s low high last acc false []),
        [IterEvent.chk low high last])
  | fuel + 1, s, low, high, last, acc =>
      if 1 < wsub high low then
        let mid := wadd high low / 2
        let sm : ExecState := { s with glim := mid }
        match B.callRaw sm f t cd v with
        | none => (.errEx sm [Op.oCallRaw mid], [IterEvent.chk low high last])
        | some r =>
            if isGasFailure r.exit_reason then
              let p := searchLoopTrace B f t cd v fuel sm mid high last acc
              (p.1.consOp (Op.oCallRaw mid), IterEvent.chk low high last :: p.2)
            else
              if wmul (wsub last mid) 10 / last < 1 then
                (.done sm low mid last mid true [Op.oCallRaw mid],
                  [IterEvent.chk low high last, IterEvent.conv last mid])
              else
                let p := searchLoopTrace B f t cd v fuel sm low mid mid acc
                (p.1.consOp (Op.oCallRaw mid),
                  IterEvent.chk low high last :: IterEvent.conv last mid :: p.2)
      else ((.done s low high last acc false []), [IterEvent.chk low high last])

lemma wadd_eq {a b : Nat} (h : a + b < MOD64) : wadd a b = a + b :=
  Nat.mod_eq_of_lt h

lemma wmul_eq {a b : Nat} (h : a * b < MOD64) : wmul a b = a * b :=
  Nat.mod_eq_of_lt h

lemma wsub_eq {a b : Nat} (hb : b ≤ a) (ha : a < MOD64) : wsub a b = a - b := by
  have hbm : b % MOD64 = b := Nat.mod_eq_of_lt (lt_of_le_of_lt hb ha)
  unfold wsub
  rw [hbm]
  have h1 : a + (MOD64 - b) = MOD64 + (a - b) := by
    have : b ≤ MOD64 := le_of_lt (lt_of_le_of_lt hb ha)
    omega
  rw [h1, Nat.add_mod_left]
  exact Nat.mod_eq_of_lt (by omega)

lemma searchLoopTrace_fst (B : EngineBehavior) (f t : Nat) (cd : List Nat) (v : Nat) :
    ∀ fuel s low high last acc,
      (searchLoopTrace B f t cd v fuel s low high last acc).1 =
        searchLoop B f t cd v fuel s low high last acc := by
  intro fuel
  induction fuel with
  | zero =>
      intro s low high last acc
      by_cases hc : 1 < wsub high low <;> simp [searchLoopTrace, searchLoop, hc]
  | succ n ih =>
      intro s low high last acc
      by_cases hc : 1 < wsub high low
      · simp only [searchLoopTrace, searchLoop, if_pos hc]
        cases hcr : B.callRaw { s with glim := wadd high low / 2 } f t cd v with
        | none => simp [hcr]
        | some r =>
            by_cases hf : isGasFailure r.exit_reason = true
            · simp [hcr, hf, ih]
            · by_cases hcv : wmul (wsub last (wadd high low / 2)) 10 / last < 1 <;>
                simp [hcr, hf, hcv, ih]
      · simp [searchLoopTrace, searchLoop, hc]

lemma searchFn_ok_glim {B : EngineBehavior} {f t : Nat} {cd : List Nat} {v : Nat}
    {fuel : Nat} {s : ExecState} {res : RawCallResult} {s1 : ExecState}
    {ops : List Op} {g : Nat}
    (h : searchFn B f t cd v fuel s res = .ok s1 ops g) : s1.glim = s.glim := by
  unfold searchFn at h
  by_cases hok : isReturnOk res.exit_reason = true
  · simp only [hok, if_true] at h
    cases hl : searchLoop B f t cd v fuel s res.gas_used
        (wmul res.gas_used 3) (wmul res.gas_used 3) res.gas_used with
    | done s2 l2 h2 la2 g2 e2 ops2 =>
        rw [hl] at h
        simp only [SearchRes.ok.injEq] at h
        obtain ⟨hs1, -, -⟩ := h
        rw [← hs1]
    | errEx s2 ops2 => rw [hl] at h; simp at h
    | out => rw [hl] at h; simp at h
  · simp only [hok, if_false, Bool.false_eq_true] at h
    simp only [SearchRes.ok.injEq] at h
    obtain ⟨hs1, -, -⟩ := h
    rw [← hs1]

lemma searchLoop_done_ge (B : EngineBehavior) (f t : Nat) (cd : List Nat) (v : Nat)
    (M : Nat) (hM : 10 * M < MOD64) :
    ∀ fuel s low high last acc s2 l2 h2 la2 g2 e2 ops,
      low ≤ high → high ≤ last → last ≤ M →
      searchLoop B f t cd v fuel s low high last acc = .done s2 l2 h2 la2 g2 e2 ops →
      g2 = acc ∨ low ≤ g2 := by
  intro fuel
  induction fuel with
  | zero =>
      intro s low high last acc s2 l2 h2 la2 g2 e2 ops hlh hhl hlM heq
      unfold searchLoop at heq
      by_cases hc : 1 < wsub high low
      · simp [hc] at heq
      · simp only [hc, if_false, LoopExit.done.injEq] at heq
        obtain ⟨-, -, -, -, hg, -, -⟩ := heq
        exact Or.inl hg.symm
  | succ n ih =>
      intro s low high last acc s2 l2 h2 la2 g2 e2 ops hlh hhl hlM heq
      have hMlt : M < MOD64 := by omega
      have hhi : high < MOD64 := lt_of_le_of_lt (le_trans hhl hlM) hMlt
      unfold searchLoop at heq
      by_cases hc : 1 < wsub high low
      · rw [if_pos hc] at heq
        simp only [] at heq
        have hsum : high + low < MOD64 := by
          have : high ≤ M := le_trans hhl hlM
          omega
        have hwa : wadd high low = high + low := wadd_eq hsum
        have hmid_lo : low ≤ wadd high low / 2 := by rw [hwa]; omega
        have hmid_hi : wadd high low / 2 ≤ high := by rw [hwa]; omega
        cases hcr : B.callRaw { s with glim := wadd high low / 2 } f t cd v with
        | none => rw [hcr] at heq; simp at heq
        | some r =>
            rw [hcr] at heq
            simp only [] at heq
            by_cases hf : isGasFailure r.exit_reason = true
            · rw [if_pos hf] at heq
              cases hrec : searchLoop B f t cd v n { s with glim := wadd high low / 2 }
                  (wadd high low / 2) high last acc with
              | done s3 l3 h3 la3 g3 e3 ops3 =>
                  rw [hrec] at heq
                  simp only [LoopExit.consOp, LoopExit.done.injEq] at heq
                  obtain ⟨-, -, -, -, hg, -, -⟩ := heq
                  rcases ih _ _ _ _ _ _ _ _ _ _ _ _ hmid_hi hhl hlM hrec with h1 | h1
                  · exact Or.inl (hg ▸ h1)
                  · exact Or.inr (hg ▸ le_trans hmid_lo h1)
              | errEx s3 ops3 => rw [hrec] at heq; simp [LoopExit.consOp] at heq
              | out => rw [hrec] at heq; simp [LoopExit.consOp] at heq
            · rw [if_neg hf] at heq
              by_cases hcv : wmul (wsub last (wadd high low / 2)) 10 / last < 1
              · rw [if_pos hcv] at heq
                simp only [LoopExit.done.injEq] at heq
                obtain ⟨-, -, -, -, hg, -, -⟩ := heq
                exact Or.inr (hg ▸ hmid_lo)
              · rw [if_neg hcv] at heq
                cases hrec : searchLoop B f t cd v n { s with glim := wadd high low / 2 }
                    low (wadd high low / 2) (wadd high low / 2) acc with
                | done s3 l3 h3 la3 g3 e3 ops3 =>
                    rw [hrec] at heq
                    simp only [LoopExit.consOp, LoopExit.done.injEq] at heq
                    obtain ⟨-, -, -, -, hg, -, -⟩ := heq
                    have hmidM : wadd high low / 2 ≤ M :=
                      le_trans hmid_hi (le_trans hhl hlM)
                    rcases ih _ _ _ _ _ _ _ _ _ _ _ _ hmid_lo (le_refl _) hmidM hrec with h1 | h1
                    · exact Or.inl (hg ▸ h1)
                    · exact Or.inr (hg ▸ h1)
                | errEx s3 ops3 => rw [hrec] at heq; simp [LoopExit.consOp] at heq
                | out => rw [hrec] at heq; simp [LoopExit.consOp] at heq
      · rw [if_neg hc] at heq
        simp only [LoopExit.done.injEq] at heq
        obtain ⟨-, -, -, -, hg, -, -⟩ := heq
        exact Or.inl hg.symm

lemma searchLoop_no_out (B : EngineBehavior) (f t : Nat) (cd : List Nat) (v : Nat)
    (M : Nat) (hM : 10 * M < MOD64) :
    ∀ fuel s low high last acc,
      low ≤ high → high ≤ last → last ≤ M → high - low ≤ 2 ^ fuel →
      searchLoop B f t cd v fuel s low high last acc ≠ .out := by
  intro fuel
  induction fuel with
  | zero =>
      intro s low high last acc hlh hhl hlM hrange
      have hMlt : M < MOD64 := by omega
      have hhi : high < MOD64 := lt_of_le_of_lt (le_trans hhl hlM) hMlt
      have hws : wsub high low = high - low := wsub_eq hlh hhi
      unfold searchLoop
      have hc : ¬1 < wsub high low := by rw [hws]; simp at hrange; omega
      rw [if_neg hc]
      simp
  | succ n ih =>
      intro s low high last acc hlh hhl hlM hrange
      have hMlt : M < MOD64 := by omega
      have hhi : high < MOD64 := lt_of_le_of_lt (le_trans hhl hlM) hMlt
      have hws : wsub high low = high - low := wsub_eq hlh hhi
      unfold searchLoop
      by_cases hc : 1 < wsub high low
      · rw [if_pos hc]
        simp only []
        have hsum : high + low < MOD64 := by
          have : high ≤ M := le_trans hhl hlM
          omega
        have hwa : wadd high low = high + low := wadd_eq hsum
        have hmid_lo : low ≤ wadd high low / 2 := by rw [hwa]; omega
        have hmid_hi : wadd high low / 2 ≤ high := by rw [hwa]; omega
        have hpow : (2 : Nat) ^ (n + 1) = 2 ^ n + 2 ^ n := by
          rw [pow_succ]; omega
        cases hcr : B.callRaw { s with glim := wadd high low / 2 } f t cd v with
        | none => simp
        | some r =>
            simp only []
            by_cases hf : isGasFailure r.exit_reason = true
            · rw [if_pos hf]
              have hrec := ih { s with glim := wadd high low / 2 }
                (wadd high low / 2) high last acc hmid_hi hhl hlM
                (by rw [hwa]; rw [hwa] at *; omega)
              cases hres : searchLoop B f t cd v n { s with glim := wadd high low / 2 }
                  (wadd high low / 2) high last acc <;>
                simp [LoopExit.consOp, hres] at hrec ⊢
            · rw [if_neg hf]
              by_cases hcv : wmul (wsub last (wadd high low / 2)) 10 / last < 1
              · rw [if_pos hcv]; simp
              · rw [if_neg hcv]
                have hmidM : wadd high low / 2 ≤ M :=
                  le_trans hmid_hi (le_trans hhl hlM)
                have hrec := ih { s with glim := wadd high low / 2 }
                  low (wadd high low / 2) (wadd high low / 2) acc hmid_lo (le_refl _) hmidM
                  (by rw [hwa]; rw [hwa] at *; omega)
                cases hres : searchLoop B f t cd v n { s with glim := wadd high low / 2 }
                    low (wadd high low / 2) (wadd high low / 2) acc <;>
                  simp [LoopExit.consOp, hres] at hrec ⊢
      · rw [if_neg hc]
        simp

lemma searchLoopTrace_inv (B : EngineBehavior) (f t : Nat) (cd : List Nat) (v : Nat)
    (M : Nat) (hM : 10 * M < MOD64) :
    ∀ fuel s low high last acc,
      low ≤ high → high ≤ last → last ≤ M →
      ((searchLoopTrace B f t cd v fuel s low high last acc).2).all eventInvB = true := by
  intro fuel
  induction fuel with
  | zero =>
      intro s low high last acc hlh hhl hlM
      by_cases hc : 1 < wsub high low <;>
        simp [searchLoopTrace, hc, eventInvB, hlh, hhl]
  | succ n ih =>
      intro s low high last acc hlh hhl hlM
      have hMlt : M < MOD64 := by omega
      have hhi : high < MOD64 := lt_of_le_of_lt (le_trans hhl hlM) hMlt
      unfold searchLoopTrace
      by_cases hc : 1 < wsub high low
      · rw [if_pos hc]
        simp only []
        have hws : wsub high low = high - low := wsub_eq hlh hhi
        have hsum : high + low < MOD64 := by
          have : high ≤ M := le_trans hhl hlM
          omega
        have hwa : wadd high low = high + low := wadd_eq hsum
        have hmid_lo : low ≤ wadd high low / 2 := by rw [hwa]; omega
        have hmid_hi : wadd high low / 2 ≤ high := by rw [hwa]; omega
        have hlast_pos : 0 < last := by
          rw [hws] at hc; omega
        have hmid_last : wadd high low / 2 ≤ last := le_trans hmid_hi hhl
        cases hcr : B.callRaw { s with glim := wadd high low / 2 } f t cd v with
        | none => simp [eventInvB, hlh, hhl]
        | some r =>
            simp only []
            by_cases hf : isGasFailure r.exit_reason = true
            · rw [if_pos hf]
              have hrec := ih { s with glim := wadd high low / 2 }
                (wadd high low / 2) high last acc hmid_hi hhl hlM
              simp only [List.all_cons, Bool.and_eq_true]
              refine ⟨?_, hrec⟩
              simp [eventInvB, hlh, hhl]
            · rw [if_neg hf]
              by_cases hcv : wmul (wsub last (wadd high low / 2)) 10 / last < 1
              · rw [if_pos hcv]
                simp [eventInvB, hlh, hhl, hmid_last, hlast_pos]
              · rw [if_neg hcv]
                have hmidM : wadd high low / 2 ≤ M :=
                  le_trans hmid_hi (le_trans hhl hlM)
                have hrec := ih { s with glim := wadd high low / 2 }
                  low (wadd high low / 2) (wadd high low / 2) acc hmid_lo (le_refl _) hmidM
                simp only [List.all_cons, Bool.and_eq_true]
                refine ⟨?_, ?_, hrec⟩ <;>
                  simp [eventInvB, hlh, hhl, hmid_last, hlast_pos]
      · rw [if_neg hc]
        simp [eventInvB, hlh, hhl]

/-- A concrete engine state used by the concrete runs below: gas limit 500,
everything else zeroed. -/
def sZero : ExecState :=
  { glim := 500, world := 0, balances := fun _ => 0, nonces := fun _ => 0,
    cheatcodes := none, use_zk := false, zk_tx := none, test_contract := none }

/-- A raw result whose exit code is `Revert` (insufficient budget). -/
def rawFail : RawCallResult :=
  { exit_reason := .Revert, reverted := true, gas_used := 0, result := [], logs := [],
    traces := none, labels := [], debug := none, transactions := none, cheatcodes := none }

/-- A successful raw result with the given gas figure. -/
def rawOkGas (g : Nat) : RawCallResult :=
  { exit_reason := .Stop, reverted := false, gas_used := g, result := [], logs := [],
    traces := none, labels := [], debug := none, transactions := none, cheatcodes := none }

/-- An engine whose re-simulations always revert. -/
def behRevert : EngineBehavior :=
  { callRaw := fun _ _ _ _ _ => some rawFail,
    callRawCommitting := fun _ _ _ _ _ => none,
    deployEx := fun s _ _ _ => (.fatal, s),
    setupEx := fun s _ _ => (.fatal, s),
    createAddr := fun _ n => n,
    create2World := fun w => w }

/-- C1: on every exit of the binary-search loop the reported estimate is the
last value assigned to `gas_used`: the freshly assigned upper bound when the
10% convergence break fired, and the untouched accumulator (the baseline gas
figure at the top-level call) when the loop exited through
`high - low <= 1` — in which case it is in general not the final upper
bound, contrary to the claim; see the counterexample. -/
theorem c1_estimate_shape (B : EngineBehavior) (f t : Nat) (cd : List Nat) (v : Nat) :
    ∀ fuel s low high last acc s2 l2 h2 la2 g2 e2 ops,
      searchLoop B f t cd v fuel s low high last acc = .done s2 l2 h2 la2 g2 e2 ops →
      g2 = cond e2 h2 acc := by
  intro fuel
  induction fuel with
  | zero =>
      intro s low high last acc s2 l2 h2 la2 g2 e2 ops heq
      unfold searchLoop at heq
      by_cases hc : 1 < wsub high low
      · simp [hc] at heq
      · rw [if_neg hc] at heq
        simp only [LoopExit.done.injEq] at heq
        obtain ⟨-, -, -, -, hg, he, -⟩ := heq
        rw [← he, ← hg]
        rfl
  | succ n ih =>
      intro s low high last acc s2 l2 h2 la2 g2 e2 ops heq
      unfold searchLoop at heq
      by_cases hc : 1 < wsub high low
      · rw [if_pos hc] at heq
        simp only [] at heq
        cases hcr : B.callRaw { s with glim := wadd high low / 2 } f t cd v with
        | none => rw [hcr] at heq; simp at heq
        | some r =>
            rw [hcr] at heq
            simp only [] at heq
            by_cases hf : isGasFailure r.exit_reason = true
            · rw [if_pos hf] at heq
              cases hrec : searchLoop B f t cd v n { s with glim := wadd high low / 2 }
                  (wadd high low / 2) high last acc with
              | done s3 l3 h3 la3 g3 e3 ops3 =>
                  rw [hrec] at heq
                  simp only [LoopExit.consOp, LoopExit.done.injEq] at heq
                  obtain ⟨-, -, hh, -, hg, he, -⟩ := heq
                  rw [← hh, ← hg, ← he]
                  exact ih _ _ _ _ _ _ _ _ _ _ _ _ hrec
              | errEx s3 ops3 => rw [hrec] at heq; simp [LoopExit.consOp] at heq
              | out => rw [hrec] at heq; simp [LoopExit.consOp] at heq
            · rw [if_neg hf] at heq
              by_cases hcv : wmul (wsub last (wadd high low / 2)) 10 / last < 1
              · rw [if_pos hcv] at heq
                simp only [LoopExit.done.injEq] at heq
                obtain ⟨-, -, hh, -, hg, he, -⟩ := heq
                rw [← hh, ← hg, ← he]
                rfl
              · rw [if_neg hcv] at heq
                cases hrec : searchLoop B f t cd v n { s with glim := wadd high low / 2 }
                    low (wadd high low / 2) (wadd high low / 2) acc with
                | done s3 l3 h3 la3 g3 e3 ops3 =>
                    rw [hrec] at heq
                    simp only [LoopExit.consOp, LoopExit.done.injEq] at heq
                    obtain ⟨-, -, hh, -, hg, he, -⟩ := heq
                    rw [← hh, ← hg, ← he]
                    exact ih _ _ _ _ _ _ _ _ _ _ _ _ hrec
                | errEx s3 ops3 => rw [hrec] at heq; simp [LoopExit.consOp] at heq
                | out => rw [hrec] at heq; simp [LoopExit.consOp] at heq
      · rw [if_neg hc] at heq
        simp only [LoopExit.done.injEq] at heq
        obtain ⟨-, -, -, -, hg, he, -⟩ := heq
        rw [← he, ← hg]
        rfl

/-- C1 counterexample: with baseline gas 1 and an engine whose re-simulation
at the midpoint 2 reverts, the loop raises the lower bound to 2 and exits
through `high - low <= 1` with upper bound 3, yet the search returns the
untouched baseline figure 1, not the upper bound. -/
theorem c1_counterexample :
    searchLoop behRevert 0 0 [] 0 10 sZero 1 3 3 1 =
      .done { sZero with glim := 2 } 2 3 3 1 false [Op.oCallRaw 2] ∧
    searchFn behRevert 0 0 [] 0 10 sZero (rawOkGas 1) =
      .ok sZero [Op.oCallRaw 2] 1 ∧
    (1 : Nat) ≠ 3 :=
  ⟨rfl, rfl, by decide⟩

/-- C1 witness: the amended statement applied to the concrete run of the
counterexample: the loop exited without the convergence break, so the
estimate is the baseline accumulator. -/
theorem c1_estimate_shape_witness : (1 : Nat) = cond false 3 1 :=
  c1_estimate_shape behRevert 0 0 [] 0 10 sZero 1 3 3 1
    { sZero with glim := 2 } 2 3 3 1 false [Op.oCallRaw 2] rfl

/-- An engine whose re-simulation errors exactly when the configured gas
limit is 200, and otherwise reports a successful call using 100 gas. -/
def behErrAt200 : EngineBehavior :=
  { callRaw := fun s _ _ _ _ => if s.glim = 200 then none else some (rawOkGas 100),
    callRawCommitting := fun _ _ _ _ _ => none,
    deployEx := fun s _ _ _ => (.fatal, s),
    setupEx := fun s _ _ => (.fatal, s),
    createAddr := fun _ n => n,
    create2World := fun w => w }

/-- C2 failing input: baseline gas 100 with initial gas limit 500; the first
mid-search re-simulation (at the midpoint 200) returns an engine error, the
`?` operator propagates it before the restore statement runs, and the
engine's gas-limit field is left at 200 instead of being restored to 500 —
the search does leave an observable change to engine configuration. -/
theorem c2_gas_limit_not_restored :
    searchFn behErrAt200 0 0 [] 0 10 sZero (rawOkGas 100) =
      .err { sZero with glim := 200 } [Op.oCallRaw 200] ∧
    callFn behErrAt200 10 sZero 0 0 [] 0 true =
      .err { sZero with glim := 200 } [Op.oCallRaw 500, Op.oCallRaw 200] ∧
    ({ sZero with glim := 200 } : ExecState).glim ≠ sZero.glim :=
  ⟨rfl, rfl, by decide⟩

/-- C3: whenever the baseline outcome is a successful terminal code and the
search returns an estimate, the estimate is at least the baseline gas
figure (stated under the bound keeping the tripled baseline inside the
64-bit range, where the wrapping arithmetic is exact). -/
theorem c3_estimate_ge_baseline (B : EngineBehavior) (f t : Nat) (cd : List Nat) (v : Nat)
    (fuel : Nat) (s : ExecState) (res : RawCallResult) (s1 : ExecState)
    (ops : List Op) (g : Nat)
    (hg : 3 * res.gas_used < 2 ^ 60)
    (hok : isReturnOk res.exit_reason = true)
    (hs : searchFn B f t cd v fuel s res = .ok s1 ops g) :
    res.gas_used ≤ g := by
  have h60 : (2 : Nat) ^ 60 = 1152921504606846976 := by norm_num
  have h64 : MOD64 = 18446744073709551616 := by unfold MOD64; norm_num
  have hM : 10 * (3 * res.gas_used) < MOD64 := by omega
  have hw3 : wmul res.gas_used 3 = res.gas_used * 3 := wmul_eq (by omega)
  unfold searchFn at hs
  simp only [hok, if_true] at hs
  cases hl : searchLoop B f t cd v fuel s res.gas_used
      (wmul res.gas_used 3) (wmul res.gas_used 3) res.gas_used with
  | done s2 l2 h2 la2 g2 e2 ops2 =>
      rw [hl] at hs
      simp only [SearchRes.ok.injEq] at hs
      obtain ⟨-, -, hgas⟩ := hs
      have hd := searchLoop_done_ge B f t cd v (3 * res.gas_used) hM fuel s
        res.gas_used (wmul res.gas_used 3) (wmul res.gas_used 3) res.gas_used
        s2 l2 h2 la2 g2 e2 ops2 (by rw [hw3]; omega) (le_refl _) (by rw [hw3]; omega) hl
      rcases hd with h | h <;> omega
  | errEx s2 ops2 => rw [hl] at hs; simp at hs
  | out => rw [hl] at hs; simp at hs

/-- C3 witness: a concrete run with baseline gas 1 whose estimate is 1. -/
theorem c3_estimate_ge_baseline_witness : (rawOkGas 1).gas_used ≤ 1 :=
  c3_estimate_ge_baseline behRevert 0 0 [] 0 10 sZero (rawOkGas 1) sZero
    [Op.oCallRaw 2] 1 (by decide) (by decide) rfl

/-- C4: with fuel logarithmic in twice the baseline gas figure the search
never exhausts its fuel: the loop reaches one of its exits (the guard,
the convergence break, or a propagated engine error) within
`log2 (2 * baseline) + 1` iterations (stated under the bound keeping the
tripled baseline inside the 64-bit range). -/
theorem c4_terminates_log (B : EngineBehavior) (f t : Nat) (cd : List Nat) (v : Nat)
    (s : ExecState) (res : RawCallResult)
    (hg : 3 * res.gas_used < 2 ^ 60) :
    searchFn B f t cd v (Nat.log 2 (2 * res.gas_used) + 1) s res ≠ SearchRes.out := by
  have h60 : (2 : Nat) ^ 60 = 1152921504606846976 := by norm_num
  have h64 : MOD64 = 18446744073709551616 := by unfold MOD64; norm_num
  have hM : 10 * (3 * res.gas_used) < MOD64 := by omega
  have hw3 : wmul res.gas_used 3 = res.gas_used * 3 := wmul_eq (by omega)
  unfold searchFn
  by_cases hok : isReturnOk res.exit_reason = true
  · simp only [hok, if_true]
    have hrange : wmul res.gas_used 3 - res.gas_used ≤
        2 ^ (Nat.log 2 (2 * res.gas_used) + 1) := by
      rw [hw3]
      rcases Nat.eq_zero_or_pos res.gas_used with h0 | h0
      · simp [h0]
      · have hlt := Nat.lt_pow_succ_log_self (by norm_num : 1 < 2) (2 * res.gas_used)
        omega
    have hno := searchLoop_no_out B f t cd v (3 * res.gas_used) hM
      (Nat.log 2 (2 * res.gas_used) + 1) s res.gas_used
      (wmul res.gas_used 3) (wmul res.gas_used 3) res.gas_used
      (by rw [hw3]; omega) (le_refl _) (by rw [hw3]; omega) hrange
    cases hl : searchLoop B f t cd v (Nat.log 2 (2 * res.gas_used) + 1) s res.gas_used
        (wmul res.gas_used 3) (wmul res.gas_used 3) res.gas_used with
    | done s2 l2 h2 la2 g2 e2 ops2 => simp
    | errEx s2 ops2 => simp
    | out => exact absurd hl hno
  · simp only [hok, if_false, Bool.false_eq_true]
    simp

/-- C4 witness: the concrete revert-only run with baseline 1 terminates with
logarithmic fuel. -/
theorem c4_terminates_log_witness :
    searchFn behRevert 0 0 [] 0 (Nat.log 2 (2 * (rawOkGas 1).gas_used) + 1) sZero
      (rawOkGas 1) ≠ SearchRes.out :=
  c4_terminates_log behRevert 0 0 [] 0 sZero (rawOkGas 1) (by decide)

/-- C10: along the entire run of the search loop started from the
`search_optimal_gas_usage` entry values, every evaluation of the loop guard
has `low ≤ high ≤ last` and every evaluation of the convergence expression
has `high ≤ last` with `last` positive, so the two 64-bit subtractions never
underflow and the division never divides by zero (stated under the bound
keeping the tripled baseline inside the 64-bit range). -/
theorem c10_loop_invariant (B : EngineBehavior) (f t : Nat) (cd : List Nat) (v : Nat)
    (fuel : Nat) (s : ExecState) (g : Nat) (hg : 3 * g < 2 ^ 60) :
    ((searchLoopTrace B f t cd v fuel s g (wmul g 3) (wmul g 3) g).2).all eventInvB = true := by
  have h60 : (2 : Nat) ^ 60 = 1152921504606846976 := by norm_num
  have h64 : MOD64 = 18446744073709551616 := by unfold MOD64; norm_num
  have hM : 10 * (3 * g) < MOD64 := by omega
  have hw3 : wmul g 3 = g * 3 := wmul_eq (by omega)
  exact searchLoopTrace_inv B f t cd v (3 * g) hM fuel s g (wmul g 3) (wmul g 3) g
    (by rw [hw3]; omega) (le_refl _) (by rw [hw3]; omega)

/-- C10 witness: the concrete revert-only run with baseline 1. -/
theorem c10_loop_invariant_witness :
    ((searchLoopTrace behRevert 0 0 [] 0 10 sZero 1 (wmul 1 3) (wmul 1 3) 1).2).all
      eventInvB = true :=
  c10_loop_invariant behRevert 0 0 [] 0 10 sZero 1 (by decide)

/-- C5: with `commit` false the call path performs exactly one engine
operation — the non-committing baseline simulation at the configured gas
limit — returns the baseline result normalized with its own gas figure, and
leaves the engine state unchanged: no gas search and no committing
re-execution happen. -/
theorem c5_noncommitting_single_sim (B : EngineBehavior) (fuel : Nat) (s : ExecState)
    (f t : Nat) (cd : List Nat) (v : Nat) (r : RawCallResult)
    (h : B.callRaw s f t cd v = some r) :
    callFn B fuel s f t cd v false =
      .ok s [Op.oCallRaw s.glim] (mkScriptResult r r.gas_used) := by
  unfold callFn
  rw [h]
  rfl

/-- A committing-mode raw result with distinctive payloads. -/
def rawCommitRes : RawCallResult :=
  { exit_reason := .Ret, reverted := false, gas_used := 42, result := [5], logs := [9],
    traces := some 3, labels := [(8, 1)], debug := some 4, transactions := some [2],
    cheatcodes := some { corrected_nonce := true, breakpoints := 6 } }

/-- An engine whose simulations succeed with gas 1 and whose committing
execution returns `rawCommitRes` advancing the world to 7. -/
def behCommit : EngineBehavior :=
  { callRaw := fun _ _ _ _ _ => some (rawOkGas 1),
    callRawCommitting := fun _ _ _ _ _ => some (rawCommitRes, 7),
    deployEx := fun s _ _ _ => (.fatal, s),
    setupEx := fun s _ _ => (.fatal, s),
    createAddr := fun _ n => n,
    create2World := fun w => w }

/-- C5 witness: a concrete non-committing call. -/
theorem c5_noncommitting_single_sim_witness :
    callFn behCommit 10 sZero 0 0 [] 0 false =
      .ok sZero [Op.oCallRaw sZero.glim] (mkScriptResult (rawOkGas 1) (rawOkGas 1).gas_used) :=
  c5_noncommitting_single_sim behCommit 10 sZero 0 0 [] 0 (rawOkGas 1) rfl

/-- C6: with `commit` true, when the baseline simulation, the gas search and
the committing re-execution all succeed, the returned result is the
committing re-execution's result with the gas field replaced by the search
estimate; the committing call runs against the post-search state whose gas
limit equals the original one (the estimate is not installed as a ceiling),
with the original from/to/calldata/value arguments. -/
theorem c6_commit_reports_estimate (B : EngineBehavior) (fuel : Nat) (s : ExecState)
    (f t : Nat) (cd : List Nat) (v : Nat) (r : RawCallResult) (s1 : ExecState)
    (ops : List Op) (g : Nat) (r2 : RawCallResult) (w2 : Nat)
    (h1 : B.callRaw s f t cd v = some r)
    (h2 : searchFn B f t cd v fuel s r = .ok s1 ops g)
    (h3 : B.callRawCommitting s1 f t cd v = some (r2, w2)) :
    callFn B fuel s f t cd v true =
      .ok { s1 with world := w2 }
        (Op.oCallRaw s.glim :: ops ++ [Op.oCommit s1.glim]) (mkScriptResult r2 g) ∧
    s1.glim = s.glim := by
  constructor
  · unfold callFn
    rw [h1]
    simp only []
    rw [h2]
    simp only []
    rw [h3]
    rfl
  · exact searchFn_ok_glim h2

/-- C6 witness: a concrete committing call whose estimate is the baseline 1
and whose reported fields come from `rawCommitRes`. -/
theorem c6_commit_reports_estimate_witness :
    callFn behCommit 10 sZero 0 0 [] 0 true =
      .ok { sZero with world := 7 }
        [Op.oCallRaw 500, Op.oCallRaw 2, Op.oCommit 500] (mkScriptResult rawCommitRes 1) ∧
    sZero.glim = sZero.glim :=
  c6_commit_reports_estimate behCommit 10 sZero 0 0 [] 0 (rawOkGas 1) sZero
    [Op.oCallRaw 2] 1 rawCommitRes 7 rfl rfl rfl

/-- A concrete structured execution failure used by the runs below. -/
def errE : ExecutionErr :=
  { reverted := true, reason := 1, traces := some 2, labels := [], logs := [3],
    debug := some 4, gas_used := 55, transactions := none }

/-- An engine whose deployments fail with the structured failure `errE`. -/
def behDeployErr : EngineBehavior :=
  { callRaw := fun _ _ _ _ _ => none,
    callRawCommitting := fun _ _ _ _ _ => none,
    deployEx := fun s _ _ _ => (.execErr errE, s),
    setupEx := fun s _ _ => (.fatal, s),
    createAddr := fun _ n => n,
    create2World := fun w => w }

/-- C7: a contract creation through `simulate` whose deployment fails with a
structured failure does not propagate an error: the synthesized result
carries the zero sentinel address and a false success flag (the value of
`address != zeroAddress` at the sentinel), while an unrecoverable engine
error still propagates. -/
theorem c7_create_failure_absorbed (B : EngineBehavior) (fuel : Nat) (s : ExecState)
    (f : Nat) (cd : List Nat) (value : Option Nat) (uz : Bool) (zk : Option Nat)
    (e : ExecutionErr) (s2 s3 : ExecState) :
    (B.deployEx (simPrep s uz zk) f cd (value.getD 0) = (.execErr e, s2) →
      simulateFn B fuel s f none (some cd) value uz zk =
        .ok s2 [] (mkDeployScriptResult 0 e.gas_used e.logs e.traces e.debug) ∧
      (mkDeployScriptResult 0 e.gas_used e.logs e.traces e.debug).success = false ∧
      (mkDeployScriptResult 0 e.gas_used e.logs e.traces e.debug).address = some 0) ∧
    (B.deployEx (simPrep s uz zk) f cd (value.getD 0) = (.fatal, s3) →
      simulateFn B fuel s f none (some cd) value uz zk = .err s3 []) := by
  constructor
  · intro h
    refine ⟨?_, rfl, rfl⟩
    unfold simulateFn
    simp only []
    rw [h]
  · intro h
    unfold simulateFn
    simp only []
    rw [h]

/-- C7 witness: a concrete failing deployment. -/
theorem c7_create_failure_absorbed_witness :
    simulateFn behDeployErr 10 sZero 0 none (some [1]) none false none =
      .ok sZero [] (mkDeployScriptResult 0 errE.gas_used errE.logs errE.traces errE.debug) ∧
    (mkDeployScriptResult 0 errE.gas_used errE.logs errE.traces errE.debug).success = false ∧
    (mkDeployScriptResult 0 errE.gas_used errE.logs errE.traces errE.debug).address = some 0 :=
  (c7_create_failure_absorbed behDeployErr 10 sZero 0 [1] none false none errE
    sZero sZero).1 rfl

/-- C8: with a setup invocation requested, the two recoverable outcome
shapes of the engine's setup entry point are normalized through the single
spec-side normalization `setupNormalize` applied to their common diagnostic
fields — `Setup`-tagged trace append, log append, nonce correction, and the
result record with success the negation of the revert flag and the debug
bucket `[constructor, setup]` — while an unrecoverable engine error is not
normalized and propagates. -/
theorem c8_setup_outcomes_normalized (B : EngineBehavior) (sender n0 libLen address : Nat)
    (sg : ExecState) (traces : List (TraceKind × Nat)) (logs : List Nat) (cdbg : Option Nat)
    (c : CallResult) (e : ExecutionErr) (sh si sj : ExecState) :
    (B.setupEx sg (some sender) address = (.ok c, sh) →
      setupPost B sender n0 libLen true (sg, address, traces, logs, cdbg) =
        some (setupNormalize sh sender n0 libLen address traces logs cdbg
          c.reverted c.gas_used c.labels c.transactions c.traces c.logs c.debug)) ∧
    (B.setupEx sg (some sender) address = (.execErr e, si) →
      setupPost B sender n0 libLen true (sg, address, traces, logs, cdbg) =
        some (setupNormalize si sender n0 libLen address traces logs cdbg
          e.reverted e.gas_used e.labels e.transactions e.traces e.logs e.debug)) ∧
    (B.setupEx sg (some sender) address = (.fatal, sj) →
      setupPost B sender n0 libLen true (sg, address, traces, logs, cdbg) = none) := by
  refine ⟨?_, ?_, ?_⟩ <;> intro h <;>
    · unfold setupPost
      simp only []
      rw [h]
      rfl

/-- A concrete clean setup outcome with a revert flag set. -/
def callC : CallResult :=
  { reverted := true, traces := some 1, labels := [(2, 3)], logs := [4],
    debug := some 5, gas_used := 66, transactions := some [7] }

/-- An engine whose setup entry point returns the clean outcome `callC`. -/
def behSetupOk : EngineBehavior :=
  { callRaw := fun _ _ _ _ _ => none,
    callRawCommitting := fun _ _ _ _ _ => none,
    deployEx := fun s _ _ _ => (.fatal, s),
    setupEx := fun s _ _ => (.ok callC, s),
    createAddr := fun _ n => n,
    create2World := fun w => w }

/-- C8 witness: a concrete clean-with-revert-flag setup outcome normalized
through `setupNormalize`. -/
theorem c8_setup_outcomes_normalized_witness :
    setupPost behSetupOk 4 7 2 true (sZero, 11, [], [], some 0) =
      some (setupNormalize sZero 4 7 2 11 [] [] (some 0)
        callC.reverted callC.gas_used callC.labels callC.transactions
        callC.traces callC.logs callC.debug) :=
  (c8_setup_outcomes_normalized behSetupOk 4 7 2 11 sZero [] [] (some 0)
    callC errE sZero sZero sZero).1 rfl

/-- C9: the nonce correction step forces the sender nonce to exactly the
supplied starting nonce plus the library count (independently of the current
nonce) precisely when the cheatcode subsystem is present with the corrected
flag unset, clears the flag in every present-cheatcodes case so it cannot
leak into subsequent calls, and changes nothing when the subsystem is
absent. -/
theorem c9_nonce_correction (s : ExecState) (sender n0 len : Nat) (cc : Cheatcodes) :
    (s.cheatcodes = some cc → cc.corrected_nonce = false →
      maybeCorrectNonce s sender n0 len =
        { s with nonces := Function.update s.nonces sender (n0 + len),
                 cheatcodes := some { cc with corrected_nonce := false } }) ∧
    (s.cheatcodes = some cc → cc.corrected_nonce = true →
      maybeCorrectNonce s sender n0 len =
        { s with cheatcodes := some { cc with corrected_nonce := false } }) ∧
    (s.cheatcodes = none → maybeCorrectNonce s sender n0 len = s) := by
  refine ⟨?_, ?_, ?_⟩
  · intro h hf
    unfold maybeCorrectNonce
    rw [h]
    simp only [hf]
    rfl
  · intro h hf
    unfold maybeCorrectNonce
    rw [h]
    simp only [hf]
    rfl
  · intro h
    unfold maybeCorrectNonce
    rw [h]

/-- A concrete state with present cheatcodes and the corrected flag unset. -/
def sCheat : ExecState :=
  { sZero with cheatcodes := some { corrected_nonce := false, breakpoints := 0 } }

/-- C9 witness: the concrete correction forcing the nonce to start 7 plus
2 libraries. -/
theorem c9_nonce_correction_witness :
    maybeCorrectNonce sCheat 4 7 2 =
      { sCheat with nonces := Function.update sCheat.nonces 4 (7 + 2),
                    cheatcodes := some { corrected_nonce := false, breakpoints := 0 } } :=
  (c9_nonce_correction sCheat 4 7 2 { corrected_nonce := false, breakpoints := 0 }).1
    rfl rfl
